import Mathlib

/-!
Verification development for the `av` package (Alpha Vantage client library).

The Go source `av.go` is shallowly embedded: `url.Values` (a map from query
keys to values, mutated only through `Set` and serialised by `Encode`, which
sorts keys) is embedded as an association list kept sorted by key, so that it
is a canonical representation of the underlying map; `url.URL` is embedded as
a structure of the fields the package touches; the HTTP transport and the
response-body decoders are external collaborators and appear as function
parameters of the client operations.
-/

namespace AV

/-! ## Embedding of `net/url` query values (`url.Values`)

Go's `url.Values` is `map[string][]string`; the package only ever calls
`Set` (which replaces the whole entry with a single value) and `Encode`
(which emits `k=v` pairs sorted by key).  We embed it as an association
list of single-valued entries kept sorted by key: the canonical
representation of such a map. -/

abbrev Values : Type := List (String × String)

def Values.empty : Values := []

/-- `Set` of `url.Values`: replace any existing entry for `k` with the single
value `v`.  The list is kept sorted by key (canonical map representation). -/
def Values.set : Values → String → String → Values
  | [], k, v => [(k, v)]
  | p :: ps, k, v =>
    if k < p.1 then (k, v) :: p :: ps
    else if k = p.1 then (k, v) :: ps
    else p :: Values.set ps k v

/-- `Get` of `url.Values` (restricted to the single-valued entries the
package creates): the value stored for `k`, if any. -/
def Values.get (vs : Values) (k : String) : Option String :=
  (vs.find? (fun p => p.1 = k)).map (·.2)

/-- Key ordering used by `Encode` (Go sorts the keys with `sort.Strings`). -/
def keyLe (a b : String × String) : Prop := a.1 ≤ b.1

instance : DecidableRel keyLe := fun a b => inferInstanceAs (Decidable (a.1 ≤ b.1))

instance : IsTotal (String × String) keyLe := ⟨fun a b => le_total a.1 b.1⟩

instance : IsTrans (String × String) keyLe := ⟨fun _ _ _ h h' => le_trans h h'⟩

/-- The `k=v` pairs in the order `Encode` emits them: sorted by key. -/
def Values.encodePairs (vs : Values) : List (String × String) :=
  List.insertionSort keyLe vs

/-- One byte of Go's `url.QueryEscape`: alphanumerics and `-_.~` are kept,
a space becomes `+`, every other byte becomes `%XX` (upper-case hex). -/
def escapeByte (b : Nat) : List Char :=
  if b = 32 then ['+']
  else if (48 ≤ b && b ≤ 57) || (65 ≤ b && b ≤ 90) || (97 ≤ b && b ≤ 122)
      || b = 45 || b = 95 || b = 46 || b = 126 then [Char.ofNat b]
  else ['%', Char.ofNat (if b / 16 < 10 then 48 + b / 16 else 55 + b / 16),
        Char.ofNat (if b % 16 < 10 then 48 + b % 16 else 55 + b % 16)]

/-- Go's `url.QueryEscape`, applied byte-wise to the UTF-8 encoding. -/
def queryEscape (s : String) : String :=
  String.mk ((s.toUTF8.toList.map (·.toNat)).foldr (fun b acc => escapeByte b ++ acc) [])

/-- `Encode` of `url.Values`: `k=v` pairs escaped and joined with `&`,
keys in sorted order. -/
def Values.encode (vs : Values) : String :=
  String.intercalate "&"
    (vs.encodePairs.map (fun p => queryEscape p.1 ++ "=" ++ queryEscape p.2))

/-! ## Embedding of `url.URL` and the package constants -/

structure URL where
  scheme : String := ""
  host : String := ""
  path : String := ""
  rawQuery : String := ""
  deriving DecidableEq, Repr

def HostDefault : String := "www.alphavantage.co"

def schemeHttps : String := "https"

def queryApiKey : String := "apikey"
def queryDataType : String := "datatype"
def queryOutputSize : String := "outputsize"
def querySymbol : String := "symbol"
def queryMarket : String := "market"
def queryEndpoint : String := "function"
def queryInterval : String := "interval"
def queryKeywords : String := "keywords"

def valueCompact : String := "compact"
def valueFull : String := "full"
def valueCsv : String := "csv"
def valueJson : String := "json"
def valueDigitcalCurrencyEndpoint : String := "DIGITAL_CURRENCY_INTRADAY"
def valueSymbolSearchEndpoint : String := "SYMBOL_SEARCH"

def pathQuery : String := "query"

/-- `requestTimeout = time.Second * 30`, in nanoseconds (`time.Duration`). -/
def requestTimeout : Nat := 30 * 1000000000

/-! ## OutputSize -/

/-- `type OutputSize uint8`; values are the naturals below 256. -/
abbrev OutputSize : Type := Nat

def Compact : OutputSize := 0
def Full : OutputSize := 1

/-- `func (outputSize OutputSize) String() string`: `switch` on the two
enumerated values, defaulting to compact for any other value. -/
def OutputSize.toStr (outputSize : OutputSize) : String :=
  if outputSize = Compact then valueCompact
  else if outputSize = Full then valueFull
  -- default to compact if a non expected value is passed
  else valueCompact

/-- `getOutputSize`: only the first element of the optional slice is used;
an empty slice yields `Compact.String()`. -/
def getOutputSize (optionalOutputSize : List OutputSize) : String :=
  if optionalOutputSize.length > 0 then
    (optionalOutputSize.headI).toStr
  else
    Compact.toStr

/-! ## Transport

`Connection` is an interface (`Request(endpoint *url.URL) (*http.Response,
error)`).  A response is reduced to the one capability the client uses:
reading its body, which yields either the full contents or a read error.
A connection is embedded as a function from the endpoint URL to either a
transport error or a response. -/

structure Response where
  body : Except String String

def Conn : Type := URL → Except String Response

/-- The concrete transport `avConnection`: an `http.Client` (of which only
the configured `Timeout` is observable) plus a host. -/
structure AvConnection where
  clientTimeout : Nat
  host : String

/-- `NewConnectionHost`: an `http.Client` with `Timeout: requestTimeout`,
wrapped with the given host. -/
def NewConnectionHost (host : String) : AvConnection :=
  { clientTimeout := requestTimeout, host := host }

/-- `NewConnection`: `NewConnectionHost(HostDefault)`. -/
def NewConnection : AvConnection :=
  NewConnectionHost HostDefault

/-- `(conn *avConnection).Request` first mutates the endpoint it was handed:
`endpoint.Scheme = schemeHttps; endpoint.Host = conn.host`.  This function is
the endpoint after that mutation; it is also the URL `conn.client.Get` is
issued against (`targetUrl`). -/
def AvConnection.requestUrl (conn : AvConnection) (endpoint : URL) : URL :=
  { endpoint with scheme := schemeHttps, host := conn.host }

/-! ## Client -/

structure Client where
  conn : Conn
  apiKey : String

def NewClientConnection (apiKey : String) (connection : Conn) : Client :=
  { conn := connection, apiKey := apiKey }

/-- The base parameters of `buildRequestPath`: API key, data type and output
size, each `Set` in turn on the fresh query. -/
def Client.baseQuery (c : Client) : Values :=
  ((Values.empty.set queryApiKey c.apiKey).set queryDataType valueCsv).set
    queryOutputSize valueCompact

/-- The query values built by `buildRequestPath`: the three base parameters
are `Set`, then every caller-supplied parameter is `Set` over them.  The
caller's map is embedded as an association list with pairwise-distinct keys
(`map[string]string` iterated in an arbitrary order). -/
def Client.buildRequestQuery (c : Client) (params : List (String × String)) : Values :=
  params.foldl (fun q p => q.set p.1 p.2) c.baseQuery

/-- `buildRequestPath`: a fresh URL with `Path = "query"` and
`RawQuery = query.Encode()`. -/
def Client.buildRequestPath (c : Client) (params : List (String × String)) : URL :=
  { scheme := "", host := "", path := pathQuery,
    rawQuery := (c.buildRequestQuery params).encode }

/-- Modelled from the spec: `timeSeriesIntraday.keyName()` (the `TimeSeries`
enumeration and its `keyName` method are not under `src/`); each enumeration
value maps to a stable string key identifying the endpoint. -/
def timeSeriesIntradayKeyName : String := "TIME_SERIES_INTRADAY"

/-- Modelled from the spec: the `GlobalQuote` function-key constant is not
under `src/`. -/
def GlobalQuote : String := "GLOBAL_QUOTE"

/-! ## Client operations

Each Go operation returns `(result, error)` where exactly one of the two is
set; this is embedded as `Except`: `.error e` is `(nil, e)` and `.ok x` is
`(x, nil)`.  The decoders (`parseTimeSeriesData` and friends are defined
outside `av.go`) and `json.Unmarshal` are external collaborators passed as
the `parse` / `unmarshal` arguments; `TimeInterval.keyName()` and
`TimeSeries.keyName()` values are passed as their string keys. -/

/-- The caller parameters of `StockTimeSeriesIntraday`. -/
def stockTimeSeriesIntradayParams (timeIntervalKey symbol : String) :
    List (String × String) :=
  [(queryEndpoint, timeSeriesIntradayKeyName),
   (queryInterval, timeIntervalKey),
   (querySymbol, symbol)]

/-- `StockTimeSeriesIntraday`: build endpoint, request, propagate a transport
error unchanged, otherwise decode the response body. -/
def Client.StockTimeSeriesIntraday (c : Client) {α : Type}
    (parse : Except String String → Except String α)
    (timeIntervalKey symbol : String) : Except String α :=
  let endpoint := c.buildRequestPath
    (stockTimeSeriesIntradayParams timeIntervalKey symbol)
  match c.conn endpoint with
  | .error e => .error e
  | .ok response => parse response.body

/-- The caller parameters of `StockTimeSeries`: series key, symbol and the
output size computed by `getOutputSize` from the optional slice. -/
def stockTimeSeriesParams (timeSeriesKey symbol : String)
    (optionalOutputSize : List OutputSize) : List (String × String) :=
  [(queryEndpoint, timeSeriesKey),
   (querySymbol, symbol),
   (queryOutputSize, getOutputSize optionalOutputSize)]

/-- `StockTimeSeries`. -/
def Client.StockTimeSeries (c : Client) {α : Type}
    (parse : Except String String → Except String α)
    (timeSeriesKey symbol : String) (optionalOutputSize : List OutputSize) :
    Except String α :=
  let endpoint := c.buildRequestPath
    (stockTimeSeriesParams timeSeriesKey symbol optionalOutputSize)
  match c.conn endpoint with
  | .error e => .error e
  | .ok response => parse response.body

/-- The caller parameters of `DigitalCurrency`. -/
def digitalCurrencyParams (digital physical : String) : List (String × String) :=
  [(queryEndpoint, valueDigitcalCurrencyEndpoint),
   (querySymbol, digital),
   (queryMarket, physical)]

/-- `DigitalCurrency`. -/
def Client.DigitalCurrency (c : Client) {α : Type}
    (parse : Except String String → Except String α)
    (digital physical : String) : Except String α :=
  let endpoint := c.buildRequestPath (digitalCurrencyParams digital physical)
  match c.conn endpoint with
  | .error e => .error e
  | .ok response => parse response.body

/-- The caller parameters of `StockQuote`. -/
def stockQuoteParams (symbol : String) : List (String × String) :=
  [(queryEndpoint, GlobalQuote),
   (querySymbol, symbol)]

/-- `StockQuote`. -/
def Client.StockQuote (c : Client) {α : Type}
    (parse : Except String String → Except String α)
    (symbol : String) : Except String α :=
  let endpoint := c.buildRequestPath (stockQuoteParams symbol)
  match c.conn endpoint with
  | .error e => .error e
  | .ok response => parse response.body

/-- `SymbolMatches`, the target type of the JSON decode (its declaration is
not under `src/`; fields follow the spec's match-record description). -/
structure SymbolMatch where
  symbol : String
  name : String
  type : String
  region : String
  marketOpen : String
  marketClose : String
  timezone : String
  currency : String
  matchScore : String
  deriving DecidableEq, Repr

structure SymbolMatches where
  bestMatches : List SymbolMatch
  deriving DecidableEq, Repr

/-- The caller parameters of `SymbolSearch` (the data type is overridden
to json). -/
def symbolSearchParams (keywords : String) : List (String × String) :=
  [(queryEndpoint, valueSymbolSearchEndpoint),
   (queryDataType, valueJson),
   (queryKeywords, keywords)]

/-- `SymbolSearch`: build endpoint (overriding the data type to json),
request, propagate a transport error; read the whole body, propagating a
read error; then `json.Unmarshal` into `var matches *SymbolMatches` and
return `(matches, nil)` whatever the unmarshal outcome: on unmarshal
failure `matches` is left at its zero value `nil` (`.ok none`) and the
decode error is dropped. -/
def Client.SymbolSearch (c : Client)
    (unmarshal : String → Except String (Option SymbolMatches))
    (keywords : String) : Except String (Option SymbolMatches) :=
  let endpoint := c.buildRequestPath (symbolSearchParams keywords)
  match c.conn endpoint with
  | .error e => .error e
  | .ok response =>
    match response.body with
    | .error e => .error e
    | .ok body =>
      match unmarshal body with
      | .error _ => .ok none
      | .ok ms => .ok ms

/-! ## Decoders

The tabular decoders (`parseTimeSeriesData`, `parseDigitalCurrencySeriesData`,
`parseQuoteData`) are code of this repository that is not under `src/`; they
are modelled from the spec.  The tabular byte stream is embedded as the
sequence of delimited records the CSV reader yields: a list of rows, each row
a list of field strings. -/

/-- A timestamp parsed as UTC-naive: calendar date plus time of day. -/
structure Timestamp where
  year : Nat
  month : Nat
  day : Nat
  hour : Nat
  minute : Nat
  second : Nat
  deriving DecidableEq, Repr

/-- A decimal number: optional sign, integer part, fraction digits. -/
structure Decimal where
  neg : Bool
  units : Nat
  frac : List Char
  deriving DecidableEq, Repr

/-- Split a list of characters at every occurrence of `sep` (the groups, in
order; an empty input gives one empty group, like Go's `strings.Split`). -/
def splitOnChar (sep : Char) : List Char → List (List Char)
  | [] => [[]]
  | c :: cs =>
    if c = sep then [] :: splitOnChar sep cs
    else
      match splitOnChar sep cs with
      | [] => [[c]]
      | g :: gs => (c :: g) :: gs

/-- The natural number denoted by a digit list (most significant first). -/
def digitsToNat (cs : List Char) : Nat :=
  cs.foldl (fun n c => n * 10 + (c.toNat - 48)) 0

/-- Parse a non-empty all-digit character list as a natural number. -/
def parseNatDigits (cs : List Char) : Option Nat :=
  if !cs.isEmpty && cs.all Char.isDigit then some (digitsToNat cs) else none

/-- Modelled from the spec: parse a date `YYYY-MM-DD`. -/
def parseDateChars (cs : List Char) : Option (Nat × Nat × Nat) :=
  match splitOnChar '-' cs with
  | [y, m, d] =>
    match parseNatDigits y, parseNatDigits m, parseNatDigits d with
    | some yn, some mn, some dn =>
      if 1 ≤ mn && mn ≤ 12 && 1 ≤ dn && dn ≤ 31 then some (yn, mn, dn) else none
    | _, _, _ => none
  | _ => none

/-- Modelled from the spec: parse a time of day `HH:MM:SS`. -/
def parseTimeChars (cs : List Char) : Option (Nat × Nat × Nat) :=
  match splitOnChar ':' cs with
  | [h, m, sec] =>
    match parseNatDigits h, parseNatDigits m, parseNatDigits sec with
    | some hn, some mn, some sn =>
      if hn ≤ 23 && mn ≤ 59 && sn ≤ 59 then some (hn, mn, sn) else none
    | _, _, _ => none
  | _ => none

/-- Modelled from the spec: parse a date field `YYYY-MM-DD`. -/
def parseDateField (s : String) : Option (Nat × Nat × Nat) :=
  parseDateChars s.toList

/-- Modelled from the spec: parse a timestamp field, either a bare date or a
date followed by a time of day, read as UTC-naive. -/
def parseTimestampField (s : String) : Option Timestamp :=
  match splitOnChar ' ' s.toList with
  | [d] =>
    (parseDateChars d).map (fun p => ⟨p.1, p.2.1, p.2.2, 0, 0, 0⟩)
  | [d, t] =>
    match parseDateChars d, parseTimeChars t with
    | some p, some q => some ⟨p.1, p.2.1, p.2.2, q.1, q.2.1, q.2.2⟩
    | _, _ => none
  | _ => none

/-- Modelled from the spec: parse a decimal-number field: optional leading
minus, a digit-only integer part, an optional `.` followed by a non-empty
digit-only fraction. -/
def parseDecimalField (s : String) : Option Decimal :=
  match (match s.toList with
         | '-' :: r => (true, r)
         | r => (false, r) : Bool × List Char) with
  | (sign, rest) =>
    match splitOnChar '.' rest with
    | [i] => (parseNatDigits i).map (fun n => ⟨sign, n, []⟩)
    | [i, f] =>
      match parseNatDigits i with
      | some n =>
        if !f.isEmpty && f.all Char.isDigit then some ⟨sign, n, f⟩ else none
      | none => none
    | _ => none

/-- Modelled from the spec: parse an integer field (the series volume). -/
def parseVolumeField (s : String) : Option Nat := parseNatDigits s.toList

structure TimeSeriesValue where
  time : Timestamp
  openPrice : Decimal
  high : Decimal
  low : Decimal
  close : Decimal
  volume : Nat
  deriving DecidableEq, Repr

structure DigitalCurrencySeriesValue where
  time : Timestamp
  openNative : Decimal
  highNative : Decimal
  lowNative : Decimal
  closeNative : Decimal
  openMarket : Decimal
  highMarket : Decimal
  lowMarket : Decimal
  closeMarket : Decimal
  volume : Decimal
  marketCap : Decimal
  deriving DecidableEq, Repr

structure QuoteValue where
  symbol : String
  openPrice : Decimal
  high : Decimal
  low : Decimal
  price : Decimal
  volume : Nat
  latestTradingDay : Nat × Nat × Nat
  previousClose : Decimal
  change : Decimal
  changePercent : String
  deriving DecidableEq, Repr

/-- Modelled from the spec: a time-series row maps positionally to
{timestamp, open, high, low, close, volume}. -/
def parseTimeSeriesRow (r : List String) : Option TimeSeriesValue :=
  match r with
  | [t, o, h, l, c, v] =>
    match parseTimestampField t, parseDecimalField o, parseDecimalField h,
        parseDecimalField l, parseDecimalField c, parseVolumeField v with
    | some ts, some op, some hi, some lo, some cl, some vol =>
      some ⟨ts, op, hi, lo, cl, vol⟩
    | _, _, _, _, _, _ => none
  | _ => none

/-- Modelled from the spec: a digital-currency row maps positionally to
{timestamp, native OHLC, market OHLC, volume, market-cap}. -/
def parseDigitalCurrencyRow (r : List String) : Option DigitalCurrencySeriesValue :=
  match r with
  | [t, onv, hnv, lnv, cnv, omk, hmk, lmk, cmk, v, mc] =>
    match parseTimestampField t, parseDecimalField onv, parseDecimalField hnv,
        parseDecimalField lnv, parseDecimalField cnv, parseDecimalField omk,
        parseDecimalField hmk, parseDecimalField lmk, parseDecimalField cmk,
        parseDecimalField v, parseDecimalField mc with
    | some ts, some a, some b, some c, some d, some e, some f, some g,
        some h, some vol, some cap =>
      some ⟨ts, a, b, c, d, e, f, g, h, vol, cap⟩
    | _, _, _, _, _, _, _, _, _, _, _ => none
  | _ => none

/-- Modelled from the spec: a quote row maps positionally to {symbol, open,
high, low, price, volume, latest trading day, previous close, change,
change percent}. -/
def parseQuoteRow (r : List String) : Option QuoteValue :=
  match r with
  | [sym, o, h, l, p, v, d, pc, ch, cp] =>
    match parseDecimalField o, parseDecimalField h, parseDecimalField l,
        parseDecimalField p, parseVolumeField v, parseDateField d,
        parseDecimalField pc, parseDecimalField ch with
    | some op, some hi, some lo, some pr, some vol, some day, some prev,
        some chg =>
      some ⟨sym, op, hi, lo, pr, vol, day, prev, chg, cp⟩
    | _, _, _, _, _, _, _, _ => none
  | _ => none

/-- Modelled from the spec: decode the data rows in order; a row that fails
to decode fails the whole call, identifying the offending row; partial
results are never returned. -/
def parseRows {α : Type} (parseRow : List String → Option α) :
    List (List String) → Except String (List α)
  | [] => .ok []
  | r :: rs =>
    match parseRow r with
    | none => .error ("error parsing row: " ++ String.intercalate "," r)
    | some v =>
      match parseRows parseRow rs with
      | .error e => .error e
      | .ok vs => .ok (v :: vs)

/-- Modelled from the spec: `parseTimeSeriesData` (not under `src/`): the
first record is a header and is discarded; each later record is decoded in
input order. -/
def parseTimeSeriesData : List (List String) → Except String (List TimeSeriesValue)
  | [] => .error "missing header"
  | _header :: rows => parseRows parseTimeSeriesRow rows

/-- Modelled from the spec: `parseDigitalCurrencySeriesData` (not under
`src/`): same tabular discipline with the wider row schema. -/
def parseDigitalCurrencySeriesData :
    List (List String) → Except String (List DigitalCurrencySeriesValue)
  | [] => .error "missing header"
  | _header :: rows => parseRows parseDigitalCurrencyRow rows

/-- Modelled from the spec: `parseQuoteData` (not under `src/`): exactly one
data row after the header is expected; the zero-row case is an error (no
quote available); only the first data row encountered is used. -/
def parseQuoteData : List (List String) → Except String QuoteValue
  | [] => .error "missing header"
  | [_header] => .error "no quote data"
  | _header :: row :: _ =>
    match parseQuoteRow row with
    | none => .error ("error parsing row: " ++ String.intercalate "," row)
    | some q => .ok q

/-! ## Lemmas about the query-value map -/

/-- The canonical-representation invariant: keys strictly increase. -/
def Values.KeySorted (vs : Values) : Prop :=
  List.Pairwise (fun a b => a.1 < b.1) vs

theorem Values.get_nil (k : String) : Values.get [] k = none := rfl

theorem Values.get_cons (p : String × String) (ps : Values) (k : String) :
    Values.get (p :: ps) k = if p.1 = k then some p.2 else Values.get ps k := by
  by_cases h : p.1 = k <;> simp [Values.get, List.find?_cons, h]

theorem Values.get_set_self (vs : Values) (k v : String) :
    (vs.set k v).get k = some v := by
  induction vs with
  | nil => simp [Values.set, Values.get_cons]
  | cons p ps ih =>
    by_cases h1 : k < p.1
    · simp [Values.set, h1, Values.get_cons]
    · by_cases h2 : k = p.1
      · simp [Values.set, h1, h2, Values.get_cons]
      · have : p.1 ≠ k := fun h => h2 h.symm
        simp [Values.set, h1, h2, Values.get_cons, this, ih]

theorem Values.get_set_ne (vs : Values) {k k' : String} (v : String)
    (hne : k' ≠ k) : (vs.set k' v).get k = vs.get k := by
  induction vs with
  | nil => simp [Values.set, Values.get_cons, hne, Values.get_nil]
  | cons p ps ih =>
    by_cases h1 : k' < p.1
    · simp [Values.set, h1, Values.get_cons, hne]
    · by_cases h2 : k' = p.1
      · simp [Values.set, h1, h2, Values.get_cons, hne, h2 ▸ hne]
      · simp [Values.set, h1, h2, Values.get_cons, ih]

theorem Values.mem_set (vs : Values) (k v : String) {q : String × String}
    (hq : q ∈ vs.set k v) : q ∈ vs ∨ q = (k, v) := by
  induction vs with
  | nil => simp [Values.set] at hq; exact Or.inr hq
  | cons p ps ih =>
    by_cases h1 : k < p.1
    · simp [Values.set, h1] at hq
      rcases hq with h | h | h
      · exact Or.inr h
      · exact Or.inl (by simp [h])
      · exact Or.inl (by simp [h])
    · by_cases h2 : k = p.1
      · simp [Values.set, h1, h2] at hq
        rcases hq with h | h
        · exact Or.inr (by rw [h2]; exact h)
        · exact Or.inl (by simp [h])
      · simp [Values.set, h1, h2] at hq
        rcases hq with h | h
        · exact Or.inl (by simp [h])
        · rcases ih h with h' | h'
          · exact Or.inl (by simp [h'])
          · exact Or.inr h'

theorem Values.keySorted_set {vs : Values} (hs : vs.KeySorted) (k v : String) :
    (vs.set k v).KeySorted := by
  induction vs with
  | nil => simp [Values.set, Values.KeySorted]
  | cons p ps ih =>
    rw [Values.KeySorted, List.pairwise_cons] at hs
    obtain ⟨hp, hps⟩ := hs
    by_cases h1 : k < p.1
    · rw [Values.KeySorted]
      simp only [Values.set, h1, if_pos]
      refine List.pairwise_cons.mpr ⟨?_, List.pairwise_cons.mpr ⟨hp, hps⟩⟩
      intro q hq
      rcases List.mem_cons.mp hq with h | h
      · exact h ▸ h1
      · exact lt_trans h1 (hp q h)
    · by_cases h2 : k = p.1
      · rw [Values.KeySorted]
        have hset : Values.set (p :: ps) k v = (k, v) :: ps := by
          simp [Values.set, h1, h2]
        rw [hset]
        refine List.pairwise_cons.mpr ⟨?_, hps⟩
        intro q hq
        show k < q.1
        rw [h2]
        exact hp q hq
      · have hgt : p.1 < k := by
          rcases lt_trichotomy k p.1 with h | h | h
          · exact absurd h h1
          · exact absurd h h2
          · exact h
        rw [Values.KeySorted]
        simp only [Values.set, h1, h2, ite_false]
        refine List.pairwise_cons.mpr ⟨?_, ih hps⟩
        intro q hq
        rcases Values.mem_set ps k v hq with h | h
        · exact hp q h
        · exact h ▸ hgt

theorem Values.get_eq_none_of_forall_lt {vs : Values} {k : String}
    (h : ∀ q ∈ vs, k < q.1) : vs.get k = none := by
  induction vs with
  | nil => rfl
  | cons p ps ih =>
    rw [Values.get_cons]
    have hk : p.1 ≠ k := ne_of_gt (h p (List.mem_cons_self p ps))
    simp [hk, ih (fun q hq => h q (List.mem_cons_of_mem p hq))]

/-- Extensionality for canonical (key-sorted) value maps: equal lookup
functions force equal representations. -/
theorem Values.eq_of_keySorted_of_get_eq :
    ∀ {vs ws : Values}, vs.KeySorted → ws.KeySorted →
      (∀ k, vs.get k = ws.get k) → vs = ws := by
  intro vs
  induction vs with
  | nil =>
    intro ws _ hws hget
    cases ws with
    | nil => rfl
    | cons q qs =>
      have := hget q.1
      rw [Values.get_nil, Values.get_cons] at this
      simp at this
  | cons p ps ih =>
    intro ws hvs hws hget
    cases ws with
    | nil =>
      have := hget p.1
      rw [Values.get_nil, Values.get_cons] at this
      simp at this
    | cons q qs =>
      rw [Values.KeySorted, List.pairwise_cons] at hvs hws
      obtain ⟨hp, hps⟩ := hvs
      obtain ⟨hq, hqs⟩ := hws
      have hkeys : p.1 = q.1 := by
        by_contra hne
        rcases lt_or_gt_of_ne hne with h | h
        · have h1 := hget p.1
          rw [Values.get_cons, Values.get_cons] at h1
          have hqn : Values.get qs p.1 = none :=
            Values.get_eq_none_of_forall_lt (fun r hr => lt_trans h (hq r hr))
          simp [ne_of_gt h, hqn] at h1
        · have h1 := hget q.1
          rw [Values.get_cons, Values.get_cons] at h1
          have hpn : Values.get ps q.1 = none :=
            Values.get_eq_none_of_forall_lt (fun r hr => lt_trans h (hp r hr))
          simp [ne_of_gt h, hpn] at h1
      have hvals : p.2 = q.2 := by
        have h1 := hget p.1
        rw [Values.get_cons, Values.get_cons, if_pos rfl, if_pos hkeys.symm] at h1
        exact Option.some.inj h1
      have htail : ps = qs := by
        refine ih hps hqs ?_
        intro k
        by_cases hk : p.1 = k
        · subst hk
          have h1 : Values.get ps p.1 = none :=
            Values.get_eq_none_of_forall_lt hp
          have h2 : Values.get qs p.1 = none :=
            Values.get_eq_none_of_forall_lt (hkeys ▸ hq)
          rw [h1, h2]
        · have h1 := hget k
          rw [Values.get_cons, Values.get_cons, if_neg hk, if_neg (hkeys ▸ hk)] at h1
          exact h1
      calc p :: ps = (p.1, p.2) :: ps := by rfl
        _ = (q.1, q.2) :: qs := by rw [hkeys, hvals, htail]
        _ = q :: qs := by rw []

/-! ## Lemmas about folding caller parameters over the base query -/

theorem Values.get_foldl_set_of_notmem (params : List (String × String))
    (q : Values) {k : String} (h : k ∉ params.map Prod.fst) :
    (params.foldl (fun q p => q.set p.1 p.2) q).get k = q.get k := by
  induction params generalizing q with
  | nil => rfl
  | cons p rest ih =>
    simp only [List.map_cons, List.mem_cons] at h
    push_neg at h
    rw [List.foldl_cons, ih (q.set p.1 p.2) h.2,
      Values.get_set_ne q p.2 (fun he => h.1 he.symm)]

theorem Values.get_foldl_set_of_mem (params : List (String × String))
    (q : Values) {k v : String} (hnd : (params.map Prod.fst).Nodup)
    (hmem : (k, v) ∈ params) :
    (params.foldl (fun q p => q.set p.1 p.2) q).get k = some v := by
  induction params generalizing q with
  | nil => simp at hmem
  | cons p rest ih =>
    simp only [List.map_cons, List.nodup_cons] at hnd
    rcases List.mem_cons.mp hmem with h | h
    · have hk : p.1 = k := by rw [← h]
      have hnotin : k ∉ rest.map Prod.fst := hk ▸ hnd.1
      rw [List.foldl_cons, Values.get_foldl_set_of_notmem rest _ hnotin, ← h,
        Values.get_set_self]
    · exact ih (q.set p.1 p.2) hnd.2 h

theorem Values.keySorted_foldl_set (params : List (String × String))
    {q : Values} (hq : q.KeySorted) :
    ((params.foldl (fun q p => q.set p.1 p.2) q)).KeySorted := by
  induction params generalizing q with
  | nil => exact hq
  | cons p rest ih => exact ih (Values.keySorted_set hq p.1 p.2)

/-- The base query built from the three `Set` calls, as a concrete list. -/
theorem Client.baseQuery_eq (c : Client) :
    c.baseQuery =
      [(queryApiKey, c.apiKey), (queryDataType, valueCsv),
       (queryOutputSize, valueCompact)] := by
  rw [Client.baseQuery]
  have h1 : Values.empty.set queryApiKey c.apiKey = [(queryApiKey, c.apiKey)] := rfl
  rw [h1]
  have h2 : Values.set [(queryApiKey, c.apiKey)] queryDataType valueCsv =
      [(queryApiKey, c.apiKey), (queryDataType, valueCsv)] := by
    have hlt : ¬ (queryDataType < queryApiKey) := by
      rw [String.lt_iff_toList_lt]; decide
    have hne : ¬ (queryDataType = queryApiKey) := by decide
    simp [Values.set, hlt, hne]
  rw [h2]
  have hlt1 : ¬ (queryOutputSize < queryApiKey) := by
    rw [String.lt_iff_toList_lt]; decide
  have hne1 : ¬ (queryOutputSize = queryApiKey) := by decide
  have hlt2 : ¬ (queryOutputSize < queryDataType) := by
    rw [String.lt_iff_toList_lt]; decide
  have hne2 : ¬ (queryOutputSize = queryDataType) := by decide
  simp [Values.set, hlt1, hne1, hlt2, hne2]

theorem Client.baseQuery_keySorted (c : Client) : c.baseQuery.KeySorted := by
  rw [Client.baseQuery_eq]
  have h1 : queryApiKey < queryDataType := by
    rw [String.lt_iff_toList_lt]; decide
  have h2 : queryApiKey < queryOutputSize := by
    rw [String.lt_iff_toList_lt]; decide
  have h3 : queryDataType < queryOutputSize := by
    rw [String.lt_iff_toList_lt]; decide
  refine List.pairwise_cons.mpr ⟨?_, List.pairwise_cons.mpr ⟨?_, ?_⟩⟩
  · intro q hq
    rcases List.mem_cons.mp hq with h | h
    · rw [h]; exact h1
    · rw [List.mem_singleton.mp h]; exact h2
  · intro q hq
    rw [List.mem_singleton.mp hq]; exact h3
  · simp

theorem Client.buildRequestQuery_keySorted (c : Client)
    (params : List (String × String)) :
    (c.buildRequestQuery params).KeySorted :=
  Values.keySorted_foldl_set params (Client.baseQuery_keySorted c)

theorem Client.get_baseQuery_apiKey (c : Client) :
    c.baseQuery.get queryApiKey = some c.apiKey := by
  rw [Client.baseQuery_eq, Values.get_cons]
  simp

theorem Client.get_baseQuery_dataType (c : Client) :
    c.baseQuery.get queryDataType = some valueCsv := by
  have h1 : queryApiKey ≠ queryDataType := by decide
  rw [Client.baseQuery_eq, Values.get_cons, Values.get_cons]
  simp [h1]

theorem Client.get_baseQuery_outputSize (c : Client) :
    c.baseQuery.get queryOutputSize = some valueCompact := by
  have h1 : queryApiKey ≠ queryOutputSize := by decide
  have h2 : queryDataType ≠ queryOutputSize := by decide
  rw [Client.baseQuery_eq, Values.get_cons, Values.get_cons, Values.get_cons]
  simp [h1, h2]

/-- A key the caller did not supply keeps its base-query value. -/
theorem Client.get_buildRequestQuery_of_notmem (c : Client)
    (params : List (String × String)) {k : String}
    (h : k ∉ params.map Prod.fst) :
    (c.buildRequestQuery params).get k = c.baseQuery.get k :=
  Values.get_foldl_set_of_notmem params c.baseQuery h

/-- A caller-supplied pair wins on key collision. -/
theorem Client.get_buildRequestQuery_of_mem (c : Client)
    (params : List (String × String)) {k v : String}
    (hnd : (params.map Prod.fst).Nodup) (hmem : (k, v) ∈ params) :
    (c.buildRequestQuery params).get k = some v :=
  Values.get_foldl_set_of_mem params c.baseQuery hnd hmem

/-! ## Lemmas about the decoders -/

theorem parseRows_eq_ok {α : Type} (f : List String → Option α)
    (rs : List (List String)) (h : ∀ r ∈ rs, (f r).isSome) :
    parseRows f rs = .ok (rs.filterMap f) := by
  induction rs with
  | nil => rfl
  | cons r rest ih =>
    obtain ⟨v, hv⟩ := Option.isSome_iff_exists.mp (h r (List.mem_cons_self r rest))
    rw [parseRows, hv, ih (fun r' hr' => h r' (List.mem_cons_of_mem r hr')),
      List.filterMap_cons_some hv]

theorem length_filterMap_of_isSome {α β : Type} (f : α → Option β)
    (l : List α) (h : ∀ x ∈ l, (f x).isSome) :
    (l.filterMap f).length = l.length := by
  induction l with
  | nil => rfl
  | cons x xs ih =>
    obtain ⟨v, hv⟩ := Option.isSome_iff_exists.mp (h x (List.mem_cons_self x xs))
    rw [List.filterMap_cons_some hv, List.length_cons, List.length_cons,
      ih (fun y hy => h y (List.mem_cons_of_mem x hy))]

/-! ## Claims -/

/-- C1: for every parameter mapping `P` (pairwise-distinct keys, as in a Go
map) handed to the endpoint builder, the built query contains the API-key,
data-type and output-size keys; every key present in `P` carries `P`'s value
(caller-supplied pairs override the built-in defaults on key collision), and
a default key absent from `P` keeps its default value: the client's API key,
csv, compact. -/
theorem buildRequestQuery_defaults_and_overrides (c : Client)
    (P : List (String × String)) (hnd : (P.map Prod.fst).Nodup) :
    ((c.buildRequestQuery P).get queryApiKey).isSome
    ∧ ((c.buildRequestQuery P).get queryDataType).isSome
    ∧ ((c.buildRequestQuery P).get queryOutputSize).isSome
    ∧ (∀ kv ∈ P, (c.buildRequestQuery P).get kv.1 = some kv.2)
    ∧ (queryApiKey ∉ P.map Prod.fst →
        (c.buildRequestQuery P).get queryApiKey = some c.apiKey)
    ∧ (queryDataType ∉ P.map Prod.fst →
        (c.buildRequestQuery P).get queryDataType = some valueCsv)
    ∧ (queryOutputSize ∉ P.map Prod.fst →
        (c.buildRequestQuery P).get queryOutputSize = some valueCompact) := by
  have hover : ∀ kv ∈ P, (c.buildRequestQuery P).get kv.1 = some kv.2 := by
    intro kv hkv
    exact Client.get_buildRequestQuery_of_mem c P hnd (by simpa using hkv)
  have hsome : ∀ (k d : String), c.baseQuery.get k = some d →
      ((c.buildRequestQuery P).get k).isSome := by
    intro k d hbase
    by_cases hk : k ∈ P.map Prod.fst
    · obtain ⟨kv, hkv, hfst⟩ := List.mem_map.mp hk
      have := hover kv hkv
      rw [hfst] at this
      rw [this]
      rfl
    · rw [Client.get_buildRequestQuery_of_notmem c P hk, hbase]
      rfl
  refine ⟨hsome _ _ (Client.get_baseQuery_apiKey c),
    hsome _ _ (Client.get_baseQuery_dataType c),
    hsome _ _ (Client.get_baseQuery_outputSize c), hover, ?_, ?_, ?_⟩
  · intro h
    rw [Client.get_buildRequestQuery_of_notmem c P h, Client.get_baseQuery_apiKey]
  · intro h
    rw [Client.get_buildRequestQuery_of_notmem c P h, Client.get_baseQuery_dataType]
  · intro h
    rw [Client.get_buildRequestQuery_of_notmem c P h, Client.get_baseQuery_outputSize]

/-- C1 witness: a concrete client and parameter mapping overriding the
output size. -/
theorem buildRequestQuery_defaults_and_overrides_witness :
    ((([(querySymbol, "IBM"), (queryOutputSize, valueFull)] :
        List (String × String)).map Prod.fst).Nodup)
    ∧ (((Client.mk (fun _ => .error "unused") "secret").buildRequestQuery
          [(querySymbol, "IBM"), (queryOutputSize, valueFull)]).get
            queryApiKey).isSome
    ∧ (∀ kv ∈ ([(querySymbol, "IBM"), (queryOutputSize, valueFull)] :
          List (String × String)),
        ((Client.mk (fun _ => .error "unused") "secret").buildRequestQuery
          [(querySymbol, "IBM"), (queryOutputSize, valueFull)]).get kv.1 =
            some kv.2) := by
  have h := buildRequestQuery_defaults_and_overrides
    (Client.mk (fun _ => .error "unused") "secret")
    [(querySymbol, "IBM"), (queryOutputSize, valueFull)] (by decide)
  exact ⟨by decide, h.1, h.2.2.2.1⟩

/-- C2: when the transport succeeds and the body reads fully but
`json.Unmarshal` fails, `SymbolSearch` still returns a nil error with the
zero-value (nil) `SymbolMatches`; the decode error is never surfaced. -/
theorem symbolSearch_swallows_unmarshal_error (c : Client)
    (unmarshal : String → Except String (Option SymbolMatches))
    (keywords body e : String) (resp : Response)
    (hconn : c.conn (c.buildRequestPath (symbolSearchParams keywords)) = .ok resp)
    (hbody : resp.body = .ok body)
    (hdec : unmarshal body = .error e) :
    c.SymbolSearch unmarshal keywords = .ok none := by
  simp only [Client.SymbolSearch, hconn, hbody, hdec]

/-- C2 witness: a concrete transport returning an unparsable body. -/
theorem symbolSearch_swallows_unmarshal_error_witness :
    (Client.mk (fun _ => .ok ⟨.ok "not json"⟩) "key").SymbolSearch
      (fun _ => .error "invalid character") "IBM" = .ok none :=
  symbolSearch_swallows_unmarshal_error
    (Client.mk (fun _ => .ok ⟨.ok "not json"⟩) "key")
    (fun _ => .error "invalid character") "IBM" "not json" "invalid character"
    ⟨.ok "not json"⟩ rfl rfl rfl

/-- C3 counterexample: the claim "no field of the endpoint is modified by
the transport" is false: `Request` overwrites the scheme of the endpoint it
is handed (`endpoint.Scheme = schemeHttps`), already at a blank URL. -/
theorem request_endpoint_immutable_counterexample :
    AvConnection.requestUrl NewConnection
        { scheme := "", host := "", path := pathQuery, rawQuery := "" } ≠
      { scheme := "", host := "", path := pathQuery, rawQuery := "" } := by
  intro h
  have hs := congrArg URL.scheme h
  simp only [AvConnection.requestUrl] at hs
  exact (by decide : schemeHttps ≠ "") hs

/-- C3 amended: the transport mutates exactly the scheme (to https) and the
host (to the connection's configured host) of the endpoint it is handed;
the path and the query string are never modified. -/
theorem request_mutates_only_scheme_and_host (conn : AvConnection) (u : URL) :
    (conn.requestUrl u).path = u.path
    ∧ (conn.requestUrl u).rawQuery = u.rawQuery
    ∧ (conn.requestUrl u).scheme = schemeHttps
    ∧ (conn.requestUrl u).host = conn.host :=
  ⟨rfl, rfl, rfl, rfl⟩

/-- C4: for `StockTimeSeries`, the built endpoint's output-size value is the
string of the first element of the optional output-size list (later
elements are ignored), and `"compact"` when the list is empty. -/
theorem stockTimeSeries_outputSize_firstWins (c : Client) (k sym : String)
    (sizes : List OutputSize) :
    (c.buildRequestQuery (stockTimeSeriesParams k sym sizes)).get queryOutputSize
      = some (match sizes with
              | s :: _ => s.toStr
              | [] => valueCompact) := by
  have hnd : ((stockTimeSeriesParams k sym sizes).map Prod.fst).Nodup := by
    simp only [stockTimeSeriesParams, List.map_cons, List.map_nil]
    decide
  have hmem : (queryOutputSize, getOutputSize sizes) ∈
      stockTimeSeriesParams k sym sizes := by
    simp [stockTimeSeriesParams]
  rw [Client.get_buildRequestQuery_of_mem c _ hnd hmem]
  cases sizes with
  | nil => rfl
  | cons s rest => simp [getOutputSize, List.headI]

/-- C5: the `OutputSize`-to-string mapping is total: `Compact` yields
`"compact"`, `Full` yields `"full"`, and every other `uint8` value defaults
to `"compact"`. -/
theorem outputSize_toStr_total (v : OutputSize) (_hv : v < 256)
    (h0 : v ≠ Compact) (h1 : v ≠ Full) :
    OutputSize.toStr Compact = valueCompact
    ∧ OutputSize.toStr Full = valueFull
    ∧ v.toStr = valueCompact := by
  refine ⟨rfl, rfl, ?_⟩
  rw [OutputSize.toStr, if_neg h0, if_neg h1]

/-- C5 witness: the out-of-range value 7 maps to `"compact"`. -/
theorem outputSize_toStr_total_witness :
    (7 : OutputSize) < 256 ∧ (7 : OutputSize) ≠ Compact ∧ (7 : OutputSize) ≠ Full
    ∧ OutputSize.toStr 7 = valueCompact := by
  have h := outputSize_toStr_total 7 (by decide) (by decide) (by decide)
  exact ⟨by decide, by decide, by decide, h.2.2⟩

/-- C6: endpoint building is deterministic: two iteration orders of the same
parameter mapping (permutations with pairwise-distinct keys) build the same
endpoint, hence byte-identical encoded query strings, and the encoded
parameters are ordered lexicographically by key. -/
theorem buildRequestPath_deterministic_sorted (c : Client)
    (p₁ p₂ : List (String × String)) (hperm : p₁.Perm p₂)
    (hnd : (p₁.map Prod.fst).Nodup) :
    c.buildRequestPath p₁ = c.buildRequestPath p₂
    ∧ (c.buildRequestPath p₁).rawQuery = (c.buildRequestPath p₂).rawQuery
    ∧ List.Sorted keyLe (c.buildRequestQuery p₁).encodePairs := by
  have hnd₂ : (p₂.map Prod.fst).Nodup := ((hperm.map Prod.fst).nodup_iff).mp hnd
  have hq : c.buildRequestQuery p₁ = c.buildRequestQuery p₂ := by
    refine Values.eq_of_keySorted_of_get_eq (c.buildRequestQuery_keySorted p₁)
      (c.buildRequestQuery_keySorted p₂) ?_
    intro k
    by_cases hk : k ∈ p₁.map Prod.fst
    · obtain ⟨kv, hkv, hfst⟩ := List.mem_map.mp hk
      have hm1 : (k, kv.2) ∈ p₁ := by rw [← hfst]; simpa using hkv
      have hm2 : (k, kv.2) ∈ p₂ := hperm.mem_iff.mp hm1
      rw [Client.get_buildRequestQuery_of_mem c p₁ hnd hm1,
        Client.get_buildRequestQuery_of_mem c p₂ hnd₂ hm2]
    · have hk₂ : k ∉ p₂.map Prod.fst := fun hx =>
        hk ((hperm.map Prod.fst).mem_iff.mpr hx)
      rw [Client.get_buildRequestQuery_of_notmem c p₁ hk,
        Client.get_buildRequestQuery_of_notmem c p₂ hk₂]
  refine ⟨?_, ?_, ?_⟩
  · rw [Client.buildRequestPath, Client.buildRequestPath, hq]
  · rw [Client.buildRequestPath, Client.buildRequestPath, hq]
  · exact List.sorted_insertionSort keyLe _

/-- C6 witness: two iteration orders of a concrete two-key mapping. -/
theorem buildRequestPath_deterministic_sorted_witness :
    ([(querySymbol, "MSFT"), (queryInterval, "1min")] :
        List (String × String)).Perm
      [(queryInterval, "1min"), (querySymbol, "MSFT")]
    ∧ (([(querySymbol, "MSFT"), (queryInterval, "1min")] :
        List (String × String)).map Prod.fst).Nodup
    ∧ (Client.mk (fun _ => .error "unused") "key").buildRequestPath
        [(querySymbol, "MSFT"), (queryInterval, "1min")] =
      (Client.mk (fun _ => .error "unused") "key").buildRequestPath
        [(queryInterval, "1min"), (querySymbol, "MSFT")] := by
  have h := buildRequestPath_deterministic_sorted
    (Client.mk (fun _ => .error "unused") "key")
    [(querySymbol, "MSFT"), (queryInterval, "1min")]
    [(queryInterval, "1min"), (querySymbol, "MSFT")] (by decide) (by decide)
  exact ⟨by decide, by decide, h.1⟩

/-- C7: if the transport's `Request` fails, every client operation returns
exactly the transport error together with a nil result, for every decode
function (no decoding is attempted). -/
theorem clientOps_propagate_transport_error (c : Client) (e : String)
    (h : ∀ u, c.conn u = .error e) {α₁ α₂ α₃ α₄ : Type}
    (p₁ : Except String String → Except String α₁)
    (p₂ : Except String String → Except String α₂)
    (p₃ : Except String String → Except String α₃)
    (p₄ : Except String String → Except String α₄)
    (unmarshal : String → Except String (Option SymbolMatches))
    (intervalKey sym₁ seriesKey sym₂ dig phys qsym kw : String)
    (sizes : List OutputSize) :
    c.StockTimeSeriesIntraday p₁ intervalKey sym₁ = .error e
    ∧ c.StockTimeSeries p₂ seriesKey sym₂ sizes = .error e
    ∧ c.DigitalCurrency p₃ dig phys = .error e
    ∧ c.StockQuote p₄ qsym = .error e
    ∧ c.SymbolSearch unmarshal kw = .error e := by
  refine ⟨?_, ?_, ?_, ?_, ?_⟩ <;>
    simp only [Client.StockTimeSeriesIntraday, Client.StockTimeSeries,
      Client.DigitalCurrency, Client.StockQuote, Client.SymbolSearch, h]

/-- C7 witness: a concrete always-failing transport. -/
theorem clientOps_propagate_transport_error_witness :
    (∀ u, (Client.mk (fun _ => .error "timeout") "key").conn u =
      .error "timeout")
    ∧ (Client.mk (fun _ => .error "timeout") "key").StockQuote
        (fun _ => .ok (0 : Nat)) "IBM" = .error "timeout"
    ∧ (Client.mk (fun _ => .error "timeout") "key").SymbolSearch
        (fun _ => .ok none) "IBM" = .error "timeout" := by
  have h := clientOps_propagate_transport_error
    (Client.mk (fun _ => .error "timeout") "key") "timeout" (fun _ => rfl)
    (fun _ => .ok (0 : Nat)) (fun _ => .ok (0 : Nat)) (fun _ => .ok (0 : Nat))
    (fun _ => .ok (0 : Nat)) (fun _ => .ok none)
    "1min" "IBM" "TIME_SERIES_DAILY" "IBM" "BTC" "USD" "IBM" "IBM" []
  exact ⟨fun _ => rfl, h.2.2.2.1, h.2.2.2.2⟩

/-- C8: the concrete transport issues every request with scheme fixed to
https and host fixed to the connection's configured host (default
`www.alphavantage.co`), and its HTTP client is configured with the
30-second (`time.Second * 30` nanoseconds) timeout. -/
theorem avConnection_fixes_scheme_host_timeout (host : String) (u : URL) :
    ((NewConnectionHost host).requestUrl u).scheme = schemeHttps
    ∧ schemeHttps = "https"
    ∧ ((NewConnectionHost host).requestUrl u).host = host
    ∧ NewConnection.host = HostDefault
    ∧ HostDefault = "www.alphavantage.co"
    ∧ (NewConnectionHost host).clientTimeout = requestTimeout
    ∧ requestTimeout = 30 * 1000000000 :=
  ⟨rfl, rfl, rfl, rfl, rfl, rfl, rfl⟩

/-- C9: on a header plus `N` well-formed data rows the time-series decoder
returns exactly the `N` decoded records in input order; with zero data rows
the series decoders return an empty sequence and no error, while the
single-row quote decoder returns an error. -/
theorem tabular_decoders_header_and_rows (header : List String)
    (rows : List (List String))
    (h : ∀ r ∈ rows, (parseTimeSeriesRow r).isSome) :
    parseTimeSeriesData (header :: rows) =
      .ok (rows.filterMap parseTimeSeriesRow)
    ∧ (rows.filterMap parseTimeSeriesRow).length = rows.length
    ∧ parseTimeSeriesData [header] = .ok []
    ∧ parseDigitalCurrencySeriesData [header] = .ok []
    ∧ parseQuoteData [header] = .error "no quote data" :=
  ⟨parseRows_eq_ok parseTimeSeriesRow rows h,
   length_filterMap_of_isSome parseTimeSeriesRow rows h, rfl, rfl, rfl⟩

/-- C9 witness: one concrete well-formed data row. -/
theorem tabular_decoders_header_and_rows_witness :
    (∀ r ∈ [["2023-01-01", "1.5", "2.5", "0.5", "2.0", "1000"]],
      (parseTimeSeriesRow r).isSome)
    ∧ parseTimeSeriesData
        [["timestamp", "open", "high", "low", "close", "volume"],
         ["2023-01-01", "1.5", "2.5", "0.5", "2.0", "1000"]] =
      .ok ([["2023-01-01", "1.5", "2.5", "0.5", "2.0", "1000"]].filterMap
        parseTimeSeriesRow)
    ∧ ([["2023-01-01", "1.5", "2.5", "0.5", "2.0", "1000"]].filterMap
        parseTimeSeriesRow).length = 1
    ∧ parseQuoteData [["timestamp", "open", "high", "low", "close", "volume"]]
        = .error "no quote data" := by
  have h := tabular_decoders_header_and_rows
    ["timestamp", "open", "high", "low", "close", "volume"]
    [["2023-01-01", "1.5", "2.5", "0.5", "2.0", "1000"]] (by decide)
  exact ⟨by decide, h.1, h.2.1, h.2.2.2.2⟩

/-- C10: in `SymbolSearch`, an error from reading the response body is
surfaced: the operation returns a nil result together with that read error
(in contrast with unmarshal errors, which are swallowed). -/
theorem symbolSearch_surfaces_read_error (c : Client)
    (unmarshal : String → Except String (Option SymbolMatches))
    (keywords e : String) (resp : Response)
    (hconn : c.conn (c.buildRequestPath (symbolSearchParams keywords)) = .ok resp)
    (hbody : resp.body = .error e) :
    c.SymbolSearch unmarshal keywords = .error e := by
  simp only [Client.SymbolSearch, hconn, hbody]

/-- C10 witness: a concrete transport whose body read fails. -/
theorem symbolSearch_surfaces_read_error_witness :
    (Client.mk (fun _ => .ok ⟨.error "unexpected EOF"⟩) "key").SymbolSearch
      (fun _ => .ok none) "IBM" = .error "unexpected EOF" :=
  symbolSearch_surfaces_read_error
    (Client.mk (fun _ => .ok ⟨.error "unexpected EOF"⟩) "key")
    (fun _ => .ok none) "IBM" "unexpected EOF" ⟨.error "unexpected EOF"⟩
    rfl rfl

end AV
